import Mathlib

/-!
Verification of the iPad-Tutor realtime media pipeline.

The repository has two variants of the same React component:
`src/App.tsx` and `src/unnamed/part_000`.  Both share the playback
scheduling arithmetic; they differ in whether playback sources are
registered in the active set, whether the interruption signal is
handled, and in teardown bookkeeping.  The definitions below embed the
two variants' handlers (`onmessage`, `stopSession`, `startTutor`, the
outbound send paths) as pure functions over explicit state records.
Audio clock times and buffer durations are modelled as rationals.
-/

/-- An inbound message from the remote session, as read by `onmessage`:
an optional decoded-audio payload (represented by its buffer duration)
and the interruption flag `serverContent.interrupted`. -/
structure Msg where
  audio : Option ℚ
  interrupted : Bool
deriving DecidableEq

/-- Playback-scheduler state shared by both variants: `nextStartTimeRef`,
the active playback set `sourcesRef` (a JS `Set`, iterated in insertion
order, so modelled as a duplicate-free list of source ids), and a fresh-id
counter standing for allocation of new `AudioBufferSourceNode`s. -/
structure PState where
  nextStartTime : ℚ
  sources : List Nat
  nextId : Nat
deriving DecidableEq

/-- `nextStartTimeRef` starts at `useRef(0)` in both variants. -/
def initPState : PState :=
  { nextStartTime := 0, sources := [], nextId := 0 }

/-- The `onmessage` handler of `src/unnamed/part_000` (lines 156-191):
if the message carries audio, set
`nextStartTime = max(nextStartTime, outputCtx.currentTime)`, start the
source at that time, advance `nextStartTime` by the buffer duration and
add the source to the set; then, if the message carries the interruption
flag, stop every source in the set, clear it and reset `nextStartTime`
to 0.  Returns the new state and the scheduled start time, if any. -/
def onmessage_p0 (clock : ℚ) (m : Msg) (s : PState) : PState × Option ℚ :=
  let step :=
    match m.audio with
    | some dur =>
      let start := max s.nextStartTime clock
      ({ nextStartTime := start + dur,
         sources := s.sources ++ [s.nextId],
         nextId := s.nextId + 1 }, some start)
    | none => (s, none)
  if m.interrupted then
    ({ step.1 with sources := [], nextStartTime := 0 }, step.2)
  else step

/-- The `onmessage` handler of `src/App.tsx` (lines 113-125): the same
scheduling arithmetic, but the source is never added to `sourcesRef`
and the message's interruption flag is never consulted. -/
def onmessage_app (clock : ℚ) (m : Msg) (s : PState) : PState × Option ℚ :=
  match m.audio with
  | some dur =>
    let start := max s.nextStartTime clock
    ({ s with nextStartTime := start + dur }, some start)
  | none => (s, none)

/-- The `ended` listener registered in `src/unnamed/part_000`
(lines 174-176): natural completion deletes the source from the set. -/
def onEnded_p0 (id : Nat) (s : PState) : PState :=
  { s with sources := s.sources.erase id }

/-- A pure audio message with the given decoded duration. -/
def audioMsg (dur : ℚ) : Msg :=
  { audio := some dur, interrupted := false }

/-- A delivery sequence of decoded audio buffers without interruption:
each entry is (output clock time at the moment of handling, duration). -/
def audioMsgs (l : List (ℚ × ℚ)) : List (ℚ × Msg) :=
  l.map (fun cd => (cd.1, audioMsg cd.2))

/-- Run the part_000 handler over a message sequence, collecting the
scheduled start times in order. -/
def runMsgs_p0 : PState → List (ℚ × Msg) → List ℚ
  | _, [] => []
  | s, (clock, m) :: rest =>
    let r := onmessage_p0 clock m s
    (match r.2 with
     | some t => [t]
     | none => []) ++ runMsgs_p0 r.1 rest

/-- Run the App.tsx handler over a message sequence, collecting the
scheduled start times in order. -/
def runMsgs_app : PState → List (ℚ × Msg) → List ℚ
  | _, [] => []
  | s, (clock, m) :: rest =>
    let r := onmessage_app clock m s
    (match r.2 with
     | some t => [t]
     | none => []) ++ runMsgs_app r.1 rest

/-- Running sums: `sumsFrom a [d1, d2, ...] = [a, a + d1, a + d1 + d2, ...]`
(one entry per input, i.e. the scheduled timeline when the clock never
overtakes the schedule). -/
def sumsFrom : ℚ → List ℚ → List ℚ
  | _, [] => []
  | a, d :: ds => a :: sumsFrom (a + d) ds

lemma sumsFrom_length (a : ℚ) (ds : List ℚ) :
    (sumsFrom a ds).length = ds.length := by
  induction ds generalizing a with
  | nil => rfl
  | cons d ds ih => simp [sumsFrom, ih]

lemma sumsFrom_getD (a : ℚ) (ds : List ℚ) (i : Nat) (h : i < ds.length) :
    (sumsFrom a ds).getD i 0 = a + ((ds.take i).sum) := by
  induction ds generalizing a i with
  | nil => simp at h
  | cons d ds ih =>
    cases i with
    | zero => simp [sumsFrom]
    | succ j =>
      have hj : j < ds.length := by simpa using h
      have hrec := ih (a + d) j hj
      simp only [sumsFrom, List.getD_cons_succ] at hrec ⊢
      rw [hrec, List.take_succ_cons, List.sum_cons, add_assoc]

lemma runMsgs_p0_behind (s : PState) (l : List (ℚ × ℚ))
    (h : List.Forall₂ (fun c t => c ≤ t)
      (l.map Prod.fst) (sumsFrom s.nextStartTime (l.map Prod.snd))) :
    runMsgs_p0 s (audioMsgs l) = sumsFrom s.nextStartTime (l.map Prod.snd) := by
  induction l generalizing s with
  | nil => simp [audioMsgs, runMsgs_p0, sumsFrom]
  | cons cd rest ih =>
    simp only [List.map_cons, sumsFrom, List.forall₂_cons] at h
    obtain ⟨hc, hrest⟩ := h
    have hmax : max s.nextStartTime cd.1 = s.nextStartTime := max_eq_left hc
    have hrec := ih
      { nextStartTime := s.nextStartTime + cd.2,
        sources := s.sources ++ [s.nextId], nextId := s.nextId + 1 }
      (by simpa using hrest)
    simp [audioMsgs, runMsgs_p0, onmessage_p0, audioMsg, hmax, sumsFrom,
      audioMsgs] at hrec ⊢
    exact hrec

lemma runMsgs_app_behind (s : PState) (l : List (ℚ × ℚ))
    (h : List.Forall₂ (fun c t => c ≤ t)
      (l.map Prod.fst) (sumsFrom s.nextStartTime (l.map Prod.snd))) :
    runMsgs_app s (audioMsgs l) = sumsFrom s.nextStartTime (l.map Prod.snd) := by
  induction l generalizing s with
  | nil => simp [audioMsgs, runMsgs_app, sumsFrom]
  | cons cd rest ih =>
    simp only [List.map_cons, sumsFrom, List.forall₂_cons] at h
    obtain ⟨hc, hrest⟩ := h
    have hmax : max s.nextStartTime cd.1 = s.nextStartTime := max_eq_left hc
    have hrec := ih
      { nextStartTime := s.nextStartTime + cd.2,
        sources := s.sources, nextId := s.nextId }
      (by simpa using hrest)
    simp [audioMsgs, runMsgs_app, onmessage_app, audioMsg, hmax, sumsFrom]
      at hrec ⊢
    exact hrec

/-- C1: starting from `nextStartTime = 0`, for a sequence of decoded
buffers handled without interruption whose clock readings never overtake
the schedule, both variants' handlers assign the i-th buffer the start
time `max(nextStartTime, clock)` and advance `nextStartTime` by the
duration, so the scheduled start times are exactly the running sums of
the durations: the i-th start time is the sum of the previous durations
(no overlap, no gap). -/
theorem C1_gapless_scheduling (l : List (ℚ × ℚ))
    (h : List.Forall₂ (fun c t => c ≤ t)
      (l.map Prod.fst) (sumsFrom 0 (l.map Prod.snd))) :
    runMsgs_p0 initPState (audioMsgs l) = sumsFrom 0 (l.map Prod.snd)
    ∧ runMsgs_app initPState (audioMsgs l) = sumsFrom 0 (l.map Prod.snd)
    ∧ ∀ i, i < l.length →
        (runMsgs_p0 initPState (audioMsgs l)).getD i 0 =
          ((l.take i).map Prod.snd).sum := by
  have h0 : (initPState.nextStartTime : ℚ) = 0 := rfl
  refine ⟨?_, ?_, ?_⟩
  · rw [runMsgs_p0_behind initPState l (by rw [h0]; exact h), h0]
  · rw [runMsgs_app_behind initPState l (by rw [h0]; exact h), h0]
  · intro i hi
    rw [runMsgs_p0_behind initPState l (by rw [h0]; exact h), h0]
    have hlen : i < (l.map Prod.snd).length := by simpa using hi
    rw [sumsFrom_getD 0 (l.map Prod.snd) i hlen, zero_add, List.map_take]

/-- C1 witness: three buffers of duration 1/2 arriving while the clock
reads 0 are scheduled at 0, 1/2 and 1. -/
theorem C1_gapless_scheduling_witness :
    (List.Forall₂ (fun c t => c ≤ t)
      (([((0 : ℚ), (1/2 : ℚ)), (0, 1/2), (0, 1/2)]).map Prod.fst)
      (sumsFrom 0 (([((0 : ℚ), (1/2 : ℚ)), (0, 1/2), (0, 1/2)]).map Prod.snd)))
    ∧ (runMsgs_p0 initPState (audioMsgs [((0 : ℚ), (1/2 : ℚ)), (0, 1/2), (0, 1/2)]) =
        sumsFrom 0 (([((0 : ℚ), (1/2 : ℚ)), (0, 1/2), (0, 1/2)]).map Prod.snd)
      ∧ runMsgs_app initPState (audioMsgs [((0 : ℚ), (1/2 : ℚ)), (0, 1/2), (0, 1/2)]) =
        sumsFrom 0 (([((0 : ℚ), (1/2 : ℚ)), (0, 1/2), (0, 1/2)]).map Prod.snd)
      ∧ ∀ i, i < ([((0 : ℚ), (1/2 : ℚ)), (0, 1/2), (0, 1/2)]).length →
        (runMsgs_p0 initPState (audioMsgs [((0 : ℚ), (1/2 : ℚ)), (0, 1/2), (0, 1/2)])).getD i 0 =
          ((([((0 : ℚ), (1/2 : ℚ)), (0, 1/2), (0, 1/2)]).take i).map Prod.snd).sum) :=
  ⟨by norm_num [sumsFrom], C1_gapless_scheduling _ (by norm_num [sumsFrom])⟩

/-- An event handled on the event loop by the part_000 variant while a
session is live: an inbound message (with the output clock reading at
the moment of handling) or an `ended` notification for a source. -/
inductive PEvent
  | msg (clock : ℚ) (m : Msg)
  | ended (id : Nat)
deriving DecidableEq

/-- One event-loop step of the part_000 playback bookkeeping. -/
def pstep (s : PState) : PEvent → PState
  | PEvent.msg c m => (onmessage_p0 c m s).1
  | PEvent.ended id => onEnded_p0 id s

/-- Invariant of part_000 playback states: source ids in the active set
are pairwise distinct and below the allocation counter.  Holds in the
initial state and is preserved by every event. -/
def PInv (s : PState) : Prop :=
  s.sources.Nodup ∧ ∀ x ∈ s.sources, x < s.nextId

instance (s : PState) : Decidable (PInv s) := by
  unfold PInv
  infer_instance

lemma PInv_init : PInv initPState := by
  constructor
  · exact List.nodup_nil
  · intro x hx
    simp [initPState] at hx

lemma PInv_pstep (s : PState) (e : PEvent) (hs : PInv s) : PInv (pstep s e) := by
  obtain ⟨hnd, hlt⟩ := hs
  cases e with
  | msg c m =>
    cases hm : m.audio with
    | none =>
      by_cases hi : m.interrupted
      · refine ⟨?_, ?_⟩
        · simp [pstep, onmessage_p0, hm, hi]
        · intro x hx
          simp [pstep, onmessage_p0, hm, hi] at hx
      · have hst : pstep s (PEvent.msg c m) = s := by
          simp [pstep, onmessage_p0, hm, hi]
        rw [hst]
        exact ⟨hnd, hlt⟩
    | some dur =>
      by_cases hi : m.interrupted
      · refine ⟨?_, ?_⟩
        · simp [pstep, onmessage_p0, hm, hi]
        · intro x hx
          simp [pstep, onmessage_p0, hm, hi] at hx
      · have hsrc : (pstep s (PEvent.msg c m)).sources = s.sources ++ [s.nextId] := by
          simp [pstep, onmessage_p0, hm, hi]
        have hnid : (pstep s (PEvent.msg c m)).nextId = s.nextId + 1 := by
          simp [pstep, onmessage_p0, hm, hi]
        refine ⟨?_, ?_⟩
        · rw [hsrc, List.nodup_append]
          refine ⟨hnd, List.nodup_singleton _, ?_⟩
          intro a ha hb
          simp at hb
          subst hb
          exact absurd (hlt _ ha) (Nat.lt_irrefl _)
        · intro x hx
          rw [hsrc] at hx
          rw [hnid]
          rcases List.mem_append.1 hx with h1 | h1
          · exact Nat.lt_succ_of_lt (hlt x h1)
          · simp at h1
            subst h1
            exact Nat.lt_succ_self _
  | ended id =>
    refine ⟨hnd.erase id, ?_⟩
    intro x hx
    exact hlt x (List.mem_of_mem_erase hx)

/-- C5 (amended to the part_000 variant): a freshly scheduled unit enters
the active set; a unit already in the set stays there across any
non-interrupting message and across completion of a different unit; it
leaves the set exactly on its own natural completion or on an
interruption, which empties the whole set.  The side conditions (the set
holds distinct ids below the allocation counter) are themselves
preserved by every event-loop step. -/
theorem C5_active_set_membership (s : PState) (c c₂ : ℚ) (dur : ℚ) (m : Msg)
    (id : Nat) (hs : PInv s) (hid : id ∈ s.sources)
    (hm : m.interrupted = false) :
    s.nextId ∈ (onmessage_p0 c (audioMsg dur) s).1.sources
    ∧ id ∈ (onmessage_p0 c₂ m s).1.sources
    ∧ (∀ id2, id2 ≠ id → id ∈ (onEnded_p0 id2 s).sources)
    ∧ id ∉ (onEnded_p0 id s).sources
    ∧ (∀ cl (mi : Msg), mi.interrupted = true →
        (onmessage_p0 cl mi s).1.sources = [])
    ∧ (∀ e, PInv (pstep s e)) := by
  obtain ⟨hnd, hlt⟩ := hs
  refine ⟨?_, ?_, ?_, ?_, ?_, ?_⟩
  · simp [onmessage_p0, audioMsg]
  · cases hm2 : m.audio <;> simp [onmessage_p0, hm, hm2, hid]
  · intro id2 hne
    simp only [onEnded_p0]
    exact (hnd.mem_erase_iff).2 ⟨(Ne.symm hne), hid⟩
  · simp only [onEnded_p0]
    intro hmem
    exact ((hnd.mem_erase_iff).1 hmem).1 rfl
  · intro cl mi hi
    cases hm2 : mi.audio <;> simp [onmessage_p0, hi, hm2]
  · intro e
    exact PInv_pstep s e ⟨hnd, hlt⟩

/-- C5 witness: in the state with active set `[0, 1]` and counter 2,
scheduling adds unit 2, unit 1 survives an audio message and unit 0's
completion, is removed by its own completion, and interruption clears
the set. -/
theorem C5_active_set_membership_witness :
    (PInv { nextStartTime := 0, sources := [0, 1], nextId := 2 }
      ∧ (1 : Nat) ∈ ([0, 1] : List Nat)
      ∧ (audioMsg 1).interrupted = false)
    ∧ ((2 : Nat) ∈ (onmessage_p0 0 (audioMsg 1)
        { nextStartTime := 0, sources := [0, 1], nextId := 2 }).1.sources
      ∧ (1 : Nat) ∈ (onmessage_p0 0 (audioMsg 1)
        { nextStartTime := 0, sources := [0, 1], nextId := 2 }).1.sources
      ∧ (∀ id2, id2 ≠ 1 → (1 : Nat) ∈ (onEnded_p0 id2
        { nextStartTime := 0, sources := [0, 1], nextId := 2 }).sources)
      ∧ (1 : Nat) ∉ (onEnded_p0 1
        { nextStartTime := 0, sources := [0, 1], nextId := 2 }).sources
      ∧ (∀ cl (mi : Msg), mi.interrupted = true →
          (onmessage_p0 cl mi
            { nextStartTime := 0, sources := [0, 1], nextId := 2 }).1.sources = [])
      ∧ (∀ e, PInv (pstep { nextStartTime := 0, sources := [0, 1], nextId := 2 } e))) :=
  ⟨⟨by decide, by decide, by decide⟩,
    C5_active_set_membership _ 0 0 1 (audioMsg 1) 1 (by decide) (by decide) rfl⟩

/-- C5 counterexample: in the App.tsx variant a buffer is scheduled
(`onmessage` returns a start time) but the active playback set stays
empty, so the scheduled unit is never a member of the set. -/
theorem C5_app_set_not_registered :
    (onmessage_app 0 (audioMsg 1) initPState).2 = some 0
    ∧ (onmessage_app 0 (audioMsg 1) initPState).1.sources = [] := by
  constructor
  · simp [onmessage_app, audioMsg, initPState]
  · rfl

/-- C2 (amended to the part_000 variant): a message carrying the
interruption flag leaves the active playback set empty and
`nextStartTime` at 0, and the next audio buffer handled afterwards at a
clock reading `clock2 ≥ 0` is scheduled to start exactly at `clock2`,
at or after the live clock rather than at a stale future offset. -/
theorem C2_interruption_reset (clock clock2 dur : ℚ) (m : Msg) (s : PState)
    (hint : m.interrupted = true) (hc : 0 ≤ clock2) :
    (onmessage_p0 clock m s).1.sources = []
    ∧ (onmessage_p0 clock m s).1.nextStartTime = 0
    ∧ (onmessage_p0 clock2 (audioMsg dur) (onmessage_p0 clock m s).1).2 =
        some clock2 := by
  have h1 : (onmessage_p0 clock m s).1.sources = [] := by
    cases hm : m.audio <;> simp [onmessage_p0, hint, hm]
  have h2 : (onmessage_p0 clock m s).1.nextStartTime = 0 := by
    cases hm : m.audio <;> simp [onmessage_p0, hint, hm]
  refine ⟨h1, h2, ?_⟩
  generalize hq : (onmessage_p0 clock m s).1 = t at h2 ⊢
  simp [onmessage_p0, audioMsg, h2, max_eq_right hc]

/-- C2 witness: after an interrupted message in a state with two active
units and `nextStartTime = 5`, the set is empty, `nextStartTime` is 0,
and a 1-second buffer arriving at clock 2 is scheduled at 2. -/
theorem C2_interruption_reset_witness :
    ((({ audio := none, interrupted := true } : Msg).interrupted = true)
      ∧ (0 : ℚ) ≤ 2)
    ∧ ((onmessage_p0 1 { audio := none, interrupted := true }
        { nextStartTime := 5, sources := [0, 1], nextId := 2 }).1.sources = []
      ∧ (onmessage_p0 1 { audio := none, interrupted := true }
        { nextStartTime := 5, sources := [0, 1], nextId := 2 }).1.nextStartTime = 0
      ∧ (onmessage_p0 2 (audioMsg 1) (onmessage_p0 1
          { audio := none, interrupted := true }
          { nextStartTime := 5, sources := [0, 1], nextId := 2 }).1).2 = some 2) :=
  ⟨⟨rfl, by norm_num⟩,
    C2_interruption_reset 1 2 1 { audio := none, interrupted := true }
      { nextStartTime := 5, sources := [0, 1], nextId := 2 } rfl (by norm_num)⟩

/-- C2 counterexample: the App.tsx `onmessage` never consults the
interruption flag.  Handling an interrupted message in a state with
`nextStartTime = 5` leaves `nextStartTime` at 5 (not 0), and the next
buffer, arriving when the output clock reads 2, is scheduled at the
stale future offset 5 rather than at or near the clock. -/
theorem C2_app_ignores_interruption :
    (onmessage_app 1 { audio := none, interrupted := true }
      { nextStartTime := 5, sources := [], nextId := 0 }).1.nextStartTime = 5
    ∧ ((5 : ℚ) ≠ 0)
    ∧ (onmessage_app 2 (audioMsg 1) (onmessage_app 1
        { audio := none, interrupted := true }
        { nextStartTime := 5, sources := [], nextId := 0 }).1).2 = some 5
    ∧ ((2 : ℚ) < 5) := by
  refine ⟨rfl, by norm_num, ?_, by norm_num⟩
  have h5 : max (5 : ℚ) 2 = 5 := max_eq_left (by norm_num)
  show (onmessage_app 2 (audioMsg 1)
    { nextStartTime := 5, sources := [], nextId := 0 }).2 = some 5
  simp [onmessage_app, audioMsg, h5]


/-- A resource action recorded in the session-lifecycle trace: release
calls made by `stopSession` and acquisition attempts made by
`startTutor`. -/
inductive Eff
  | clearTimer (id : Nat)
  | stopTrack (id : Nat)
  | closeCtx (which : Nat)
  | stopSource (id : Nat)
  | acquireScreen
  | acquireMic
  | createCtx
  | playVideo
  | connect
deriving DecidableEq

/-- A captured media stream, identified by the ids of its tracks. -/
structure MStream where
  tracks : List Nat
deriving DecidableEq

/-- The session-level mutable state of the part_000 component: the React
state (`isActive`, `status`, `error`) and the refs (`frameIntervalRef`,
`streamsRef`, `audioContextRef` holding the input/output context ids,
`sourcesRef`, `nextStartTimeRef`). -/
structure SessionState where
  isActive : Bool
  status : String
  error : Option String
  frameInterval : Option Nat
  micStream : Option MStream
  screenStream : Option MStream
  audioCtx : Option (Nat × Nat)
  sources : List Nat
  nextStartTime : ℚ
deriving DecidableEq

/-- Models `close().catch(() => {})` and `try { s.stop() } catch (e) {}`
in `stopSession`: the release call is attempted (recorded in the trace)
and its outcome, success or failure according to the `failing` oracle,
is discarded either way, so control always continues. -/
def swallowRelease (failing : Eff → Bool) (e : Eff) : List Eff :=
  match (if failing e then Except.error () else (Except.ok () : Except Unit Unit)) with
  | Except.ok _ => [e]
  | Except.error _ => [e]

/-- `stopSession` of `src/unnamed/part_000` (lines 27-52): reset the UI
state, then cancel the frame timer, stop the mic tracks, stop the screen
tracks, close both audio contexts (failures swallowed), stop every
source in the active set (failures swallowed) and clear it, and reset
`nextStartTime` to 0, nulling each ref as it is released.  Returns the
final state and the trace of release calls in program order. -/
def stopSession_p0 (failing : Eff → Bool) (s : SessionState) : SessionState × List Eff :=
  let s0 := { s with isActive := false, status := "Ready" }
  let p1 : SessionState × List Eff :=
    match s0.frameInterval with
    | some id => ({ s0 with frameInterval := none }, [Eff.clearTimer id])
    | none => (s0, [])
  let p2 : SessionState × List Eff :=
    match p1.1.micStream with
    | some st => ({ p1.1 with micStream := none }, p1.2 ++ st.tracks.map Eff.stopTrack)
    | none => p1
  let p3 : SessionState × List Eff :=
    match p2.1.screenStream with
    | some st => ({ p2.1 with screenStream := none }, p2.2 ++ st.tracks.map Eff.stopTrack)
    | none => p2
  let p4 : SessionState × List Eff :=
    match p3.1.audioCtx with
    | some io =>
      ({ p3.1 with audioCtx := none },
        p3.2 ++ swallowRelease failing (Eff.closeCtx io.1)
             ++ swallowRelease failing (Eff.closeCtx io.2))
    | none => p3
  ({ p4.1 with sources := [], nextStartTime := 0 },
    p4.2 ++ p4.1.sources.flatMap (fun id => swallowRelease failing (Eff.stopSource id)))

/-- The teardown effect sequence exactly as section 4.5 of the spec words
it: cancel the frame timer; stop all media device tracks; close both
audio processing contexts; forcibly stop all entries in the active
playback set. -/
def specTeardownEffects (s : SessionState) : List Eff :=
  (match s.frameInterval with
   | some id => [Eff.clearTimer id]
   | none => [])
  ++ (match s.micStream with
      | some st => st.tracks.map Eff.stopTrack
      | none => [])
  ++ (match s.screenStream with
      | some st => st.tracks.map Eff.stopTrack
      | none => [])
  ++ (match s.audioCtx with
      | some io => [Eff.closeCtx io.1, Eff.closeCtx io.2]
      | none => [])
  ++ s.sources.map Eff.stopSource

lemma swallowRelease_eq (failing : Eff → Bool) (e : Eff) :
    swallowRelease failing e = [e] := by
  unfold swallowRelease
  cases failing e <;> rfl

lemma flatMap_swallowRelease (failing : Eff → Bool) (l : List Nat) :
    l.flatMap (fun id => swallowRelease failing (Eff.stopSource id)) =
      l.map Eff.stopSource := by
  induction l with
  | nil => rfl
  | cons a t ih =>
    rw [List.flatMap_cons, swallowRelease_eq, ih]
    rfl

/-- The fully released session state reached by `stopSession`: every ref
null, the playback set empty, the schedule reset, UI back to idle, the
error banner untouched. -/
def releasedState (s : SessionState) : SessionState :=
  { isActive := false, status := "Ready", error := s.error,
    frameInterval := none, micStream := none, screenStream := none,
    audioCtx := none, sources := [], nextStartTime := 0 }

lemma flatMap_single {α β : Type} (f : α → β) (l : List α) :
    (l.flatMap fun a => [f a]) = l.map f := by
  induction l with
  | nil => rfl
  | cons a t ih =>
    rw [List.flatMap_cons, ih]
    rfl

lemma stopSession_p0_eq (failing : Eff → Bool) (s : SessionState) :
    stopSession_p0 failing s = (releasedState s, specTeardownEffects s) := by
  unfold stopSession_p0 specTeardownEffects releasedState
  cases s.frameInterval <;> cases s.micStream <;> cases s.screenStream <;>
    cases s.audioCtx <;>
    simp [swallowRelease_eq, flatMap_single, List.append_assoc]

/-- `stopSession` of `src/App.tsx` (lines 28-41): the same release
sequence as part_000 — reset UI state, cancel the frame timer, stop the
mic and screen tracks, close both contexts (failures swallowed), stop
the sources (failures swallowed) and clear the set, reset
`nextStartTime` — but none of `frameIntervalRef`, `streamsRef` or
`audioContextRef` is nulled afterwards, so the stale handles stay in the
state. -/
def stopSession_app (failing : Eff → Bool) (s : SessionState) : SessionState × List Eff :=
  let s0 := { s with isActive := false, status := "Ready" }
  let e1 : List Eff :=
    match s0.frameInterval with
    | some id => [Eff.clearTimer id]
    | none => []
  let e2 : List Eff :=
    match s0.micStream with
    | some st => st.tracks.map Eff.stopTrack
    | none => []
  let e3 : List Eff :=
    match s0.screenStream with
    | some st => st.tracks.map Eff.stopTrack
    | none => []
  let e4 : List Eff :=
    match s0.audioCtx with
    | some io => swallowRelease failing (Eff.closeCtx io.1)
        ++ swallowRelease failing (Eff.closeCtx io.2)
    | none => []
  let e5 : List Eff :=
    s0.sources.flatMap (fun id => swallowRelease failing (Eff.stopSource id))
  ({ s0 with sources := [], nextStartTime := 0 },
    e1 ++ e2 ++ e3 ++ e4 ++ e5)

/-- A live mid-session state: running frame timer, one mic track, one
screen track, both contexts, one scheduled source. -/
def liveState : SessionState :=
  { isActive := true, status := "Connected", error := none,
    frameInterval := some 7, micStream := some { tracks := [2] },
    screenStream := some { tracks := [1] }, audioCtx := some (10, 11),
    sources := [4], nextStartTime := 3 }

/-- C3 counterexample: teardown in the App.tsx variant is not idempotent
in the claimed sense.  After a first `stopSession` on a live session,
the frame-timer, stream and context handles are all still non-null
(App.tsx never nulls its refs), and a second invocation re-issues the
clearInterval, track-stop and context-close calls on those stale
handles — a non-empty release trace, i.e. additional side effects. -/
theorem C3_app_not_idempotent :
    (stopSession_app (fun _ => false) liveState).1.frameInterval = some 7
    ∧ (stopSession_app (fun _ => false) liveState).1.micStream =
        some { tracks := [2] }
    ∧ (stopSession_app (fun _ => false) liveState).1.screenStream =
        some { tracks := [1] }
    ∧ (stopSession_app (fun _ => false) liveState).1.audioCtx = some (10, 11)
    ∧ (stopSession_app (fun _ => false)
        (stopSession_app (fun _ => false) liveState).1).2 =
        [Eff.clearTimer 7, Eff.stopTrack 2, Eff.stopTrack 1,
         Eff.closeCtx 10, Eff.closeCtx 11]
    ∧ (stopSession_app (fun _ => false)
        (stopSession_app (fun _ => false) liveState).1).2 ≠ [] := by
  refine ⟨rfl, rfl, rfl, rfl, ?_, ?_⟩ <;> decide

/-- C3 (amended to the part_000 variant): `stopSession` of part_000 is
idempotent.  Whatever the first
call's state was and whichever release calls fail, a second call (for
instance one following a remote close that already ran teardown) returns
the state unchanged and performs no release call at all, and after any
call every resource handle is null: the frame timer, mic stream, screen
stream and audio contexts are `none`, the scheduled-source set is empty
and `nextStartTime` is 0. -/
theorem C3_idempotent_teardown (failing failing2 : Eff → Bool) (s : SessionState) :
    stopSession_p0 failing2 (stopSession_p0 failing s).1 =
      ((stopSession_p0 failing s).1, [])
    ∧ (stopSession_p0 failing s).1.frameInterval = none
    ∧ (stopSession_p0 failing s).1.micStream = none
    ∧ (stopSession_p0 failing s).1.screenStream = none
    ∧ (stopSession_p0 failing s).1.audioCtx = none
    ∧ (stopSession_p0 failing s).1.sources = []
    ∧ (stopSession_p0 failing s).1.nextStartTime = 0 := by
  simp [stopSession_p0_eq, releasedState, specTeardownEffects]

/-- Rank of a release call in the teardown order stated by the spec:
frame timer, then device tracks, then audio contexts, then playback
sources. -/
def effRank : Eff → Nat
  | Eff.clearTimer _ => 0
  | Eff.stopTrack _ => 1
  | Eff.closeCtx _ => 2
  | Eff.stopSource _ => 3
  | _ => 4

lemma pairwise_rank_of_const {l : List Eff} {c : Nat}
    (h : ∀ e ∈ l, effRank e = c) :
    l.Pairwise (fun a b => effRank a ≤ effRank b) := by
  induction l with
  | nil => exact List.Pairwise.nil
  | cons e t ih =>
    refine List.Pairwise.cons ?_ (ih ?_)
    · intro b hb
      rw [h e (List.mem_cons_self e t), h b (List.mem_cons_of_mem e hb)]
    · intro x hx
      exact h x (List.mem_cons_of_mem e hx)

lemma pairwise_rank_append {l₁ l₂ : List Eff} {c : Nat}
    (h₁ : ∀ e ∈ l₁, effRank e ≤ c) (h₂ : ∀ e ∈ l₂, c ≤ effRank e)
    (hp₁ : l₁.Pairwise (fun a b => effRank a ≤ effRank b))
    (hp₂ : l₂.Pairwise (fun a b => effRank a ≤ effRank b)) :
    (l₁ ++ l₂).Pairwise (fun a b => effRank a ≤ effRank b) := by
  rw [List.pairwise_append]
  exact ⟨hp₁, hp₂, fun a ha b hb => le_trans (h₁ a ha) (h₂ b hb)⟩

lemma specTeardownEffects_rank (s : SessionState) :
    (specTeardownEffects s).Pairwise (fun a b => effRank a ≤ effRank b) := by
  unfold specTeardownEffects
  have hb1 : ∀ e ∈ (match s.frameInterval with
      | some id => [Eff.clearTimer id]
      | none => ([] : List Eff)), effRank e = 0 := by
    cases s.frameInterval <;> simp [effRank]
  have hb2 : ∀ e ∈ (match s.micStream with
      | some st => st.tracks.map Eff.stopTrack
      | none => ([] : List Eff)), effRank e = 1 := by
    cases s.micStream with
    | none => simp
    | some st =>
      intro e he
      simp only [List.mem_map] at he
      obtain ⟨t, _, rfl⟩ := he
      rfl
  have hb3 : ∀ e ∈ (match s.screenStream with
      | some st => st.tracks.map Eff.stopTrack
      | none => ([] : List Eff)), effRank e = 1 := by
    cases s.screenStream with
    | none => simp
    | some st =>
      intro e he
      simp only [List.mem_map] at he
      obtain ⟨t, _, rfl⟩ := he
      rfl
  have hb4 : ∀ e ∈ (match s.audioCtx with
      | some io => [Eff.closeCtx io.1, Eff.closeCtx io.2]
      | none => ([] : List Eff)), effRank e = 2 := by
    cases s.audioCtx with
    | none => simp
    | some io =>
      intro e he
      simp only [List.mem_cons, List.not_mem_nil, or_false] at he
      rcases he with rfl | rfl <;> rfl
  have hb5 : ∀ e ∈ s.sources.map Eff.stopSource, effRank e = 3 := by
    intro e he
    simp only [List.mem_map] at he
    obtain ⟨t, _, rfl⟩ := he
    rfl
  have p12 := pairwise_rank_append (c := 1)
    (fun e he => by rw [hb1 e he]; omega)
    (fun e he => by rw [hb2 e he])
    (pairwise_rank_of_const hb1) (pairwise_rank_of_const hb2)
  have p123 := pairwise_rank_append (c := 1)
    (fun e he => by
      rcases List.mem_append.1 he with h | h
      · rw [hb1 e h]; omega
      · rw [hb2 e h])
    (fun e he => by rw [hb3 e he])
    p12 (pairwise_rank_of_const hb3)
  have p1234 := pairwise_rank_append (c := 2)
    (fun e he => by
      rcases List.mem_append.1 he with h | h
      · rcases List.mem_append.1 h with h2 | h2
        · rw [hb1 e h2]; omega
        · rw [hb2 e h2]; omega
      · rw [hb3 e h]; omega)
    (fun e he => by rw [hb4 e he])
    p123 (pairwise_rank_of_const hb4)
  exact pairwise_rank_append (c := 3)
    (fun e he => by
      rcases List.mem_append.1 he with h | h
      · rcases List.mem_append.1 h with h2 | h2
        · rcases List.mem_append.1 h2 with h3 | h3
          · rw [hb1 e h3]; omega
          · rw [hb2 e h3]; omega
        · rw [hb3 e h2]; omega
      · rw [hb4 e h]; omega)
    (fun e he => by rw [hb5 e he])
    p1234 (pairwise_rank_of_const hb5)

/-- C6: for every session state and every choice of which release calls
fail, `stopSession` of part_000 performs exactly the release sequence
the spec prescribes — frame timer first, then all device tracks, then
both audio contexts, then every entry of the active playback set — its
result is identical to the no-failure run (each fallible release call
swallows its own failure, so later steps always execute), the trace is
monotone in the teardown order, and the final state has every resource
released and `nextStartTime = 0`. -/
theorem C6_teardown_order_fault_tolerant (failing : Eff → Bool) (s : SessionState) :
    (stopSession_p0 failing s).2 = specTeardownEffects s
    ∧ stopSession_p0 failing s = stopSession_p0 (fun _ => false) s
    ∧ (stopSession_p0 failing s).2.Pairwise (fun a b => effRank a ≤ effRank b)
    ∧ (stopSession_p0 failing s).1 = releasedState s := by
  refine ⟨?_, ?_, ?_, ?_⟩
  · rw [stopSession_p0_eq]
  · rw [stopSession_p0_eq, stopSession_p0_eq]
  · rw [stopSession_p0_eq]
    exact specTeardownEffects_rank s
  · rw [stopSession_p0_eq]

/-- The outside world as `startTutor` sees it: the API key, availability
of the screen-capture API, and the outcome (value or thrown error
message) of each acquisition step, in the order the code performs
them. -/
structure StartEnv where
  apiKey : Option String
  hasDisplayMedia : Bool
  screenRes : Except String MStream
  micRes : Except String MStream
  inputCtxRes : Except String Nat
  outputCtxRes : Except String Nat
  playRes : Except String Unit

/-- The message set by part_000's `startTutor` when `process.env.API_KEY`
is absent. -/
def apiKeyMissingMsg : String :=
  "API Key not found. Please ensure process.env.API_KEY is configured."

/-- The message thrown by part_000's `startTutor` when the screen-capture
API is unavailable. -/
def screenUnsupportedMsg : String :=
  "Screen sharing is not supported in this browser or context."

/-- The catch block of part_000's `startTutor` (lines 206-210): set the
error message from the thrown value, then run `stopSession`. -/
def startCatch_p0 (failing : Eff → Bool) (msg : String) (s : SessionState) :
    SessionState × List Eff :=
  stopSession_p0 failing { s with error := some msg }

/-- `startTutor` of `src/unnamed/part_000` (lines 55-211) up to opening
the remote session: bail out with an error message if the API key is
absent; otherwise clear the error, check for the screen-capture API,
acquire the screen stream, acquire the mic stream, only then register
both streams in `streamsRef`, create the two audio contexts and register
them, play the capture video element, and initiate the connection.  Any
thrown step lands in the catch block.  Returns the final state and the
trace of acquisition attempts and release calls. -/
def startTutor_p0 (env : StartEnv) (failing : Eff → Bool) (s : SessionState) :
    SessionState × List Eff :=
  match env.apiKey with
  | none => ({ s with error := some apiKeyMissingMsg }, [])
  | some _ =>
    let s := { s with error := none }
    if env.hasDisplayMedia then
      let s := { s with status := "Accessing Screen..." }
      match env.screenRes with
      | Except.error msg =>
        let r := startCatch_p0 failing msg s
        (r.1, Eff.acquireScreen :: r.2)
      | Except.ok screen =>
        let s := { s with status := "Accessing Mic..." }
        match env.micRes with
        | Except.error msg =>
          let r := startCatch_p0 failing msg s
          (r.1, Eff.acquireScreen :: Eff.acquireMic :: r.2)
        | Except.ok mic =>
          let s := { s with micStream := some mic, screenStream := some screen }
          match env.inputCtxRes with
          | Except.error msg =>
            let r := startCatch_p0 failing msg s
            (r.1, Eff.acquireScreen :: Eff.acquireMic :: Eff.createCtx :: r.2)
          | Except.ok ictx =>
            match env.outputCtxRes with
            | Except.error msg =>
              let r := startCatch_p0 failing msg s
              (r.1, Eff.acquireScreen :: Eff.acquireMic :: Eff.createCtx ::
                Eff.createCtx :: r.2)
            | Except.ok octx =>
              let s := { s with audioCtx := some (ictx, octx) }
              match env.playRes with
              | Except.error msg =>
                let r := startCatch_p0 failing msg s
                (r.1, Eff.acquireScreen :: Eff.acquireMic :: Eff.createCtx ::
                  Eff.createCtx :: Eff.playVideo :: r.2)
              | Except.ok _ =>
                let s := { s with status := "Connecting to Gemini..." }
                (s, [Eff.acquireScreen, Eff.acquireMic, Eff.createCtx,
                  Eff.createCtx, Eff.playVideo, Eff.connect])
    else
      startCatch_p0 failing screenUnsupportedMsg s

/-- The `onerror` callback of part_000 (lines 196-200): set the
connection error message, then run teardown. -/
def onerror_p0 (failing : Eff → Bool) (s : SessionState) : SessionState × List Eff :=
  stopSession_p0 failing
    { s with error := some "A connection error occurred with the Gemini API." }

/-- The `onclose` callback of part_000 (lines 201-204): teardown only,
the error banner untouched. -/
def onclose_p0 (failing : Eff → Bool) (s : SessionState) : SessionState × List Eff :=
  stopSession_p0 failing s

/-- The screen track's `onended` handler of part_000 (line 81): external
device revocation runs teardown only, the error banner untouched. -/
def onTrackEnded_p0 (failing : Eff → Bool) (s : SessionState) : SessionState × List Eff :=
  stopSession_p0 failing s

/-- A start environment in which screen-share acquisition succeeds with
one video track and microphone acquisition throws a permission error. -/
def micFailEnv : StartEnv :=
  { apiKey := some "key", hasDisplayMedia := true,
    screenRes := Except.ok { tracks := [1] },
    micRes := Except.error "Permission denied",
    inputCtxRes := Except.ok 10, outputCtxRes := Except.ok 11,
    playRes := Except.ok () }

/-- The idle session state before any start attempt. -/
def idleState : SessionState :=
  { isActive := false, status := "Ready", error := none,
    frameInterval := none, micStream := none, screenStream := none,
    audioCtx := none, sources := [], nextStartTime := 0 }

/-- C7: evaluation at the failing input.  When screen-share acquisition
succeeds (a live track with id 1) and microphone acquisition then
throws, startup aborts with the thrown message surfaced and status back
at idle, and teardown runs — but the acquired screen stream is NOT
released: `streamsRef` is only assigned after the mic step succeeds, so
`stopSession` finds `streamsRef.current.screen` null and the trace
contains no stop call for track 1, contradicting the claim that
teardown releases whatever was partially acquired. -/
theorem C7_mic_failure_leaks_screen :
    (startTutor_p0 micFailEnv (fun _ => false) idleState).1.status = "Ready"
    ∧ (startTutor_p0 micFailEnv (fun _ => false) idleState).1.error =
        some "Permission denied"
    ∧ (startTutor_p0 micFailEnv (fun _ => false) idleState).1.isActive = false
    ∧ Eff.acquireScreen ∈ (startTutor_p0 micFailEnv (fun _ => false) idleState).2
    ∧ Eff.stopTrack 1 ∉ (startTutor_p0 micFailEnv (fun _ => false) idleState).2 := by
  refine ⟨rfl, rfl, rfl, ?_, ?_⟩ <;> decide

/-- C10: when `process.env.API_KEY` is absent, part_000's `startTutor`
sets the API-key error message and returns before the try block: no
screen-share or microphone request, no context creation, no connection
attempt (empty effect trace), and every state field other than the error
message — status, isActive, streams, contexts, timer, playback set,
`nextStartTime` — is left unchanged. -/
theorem C10_missing_api_key (env : StartEnv) (failing : Eff → Bool)
    (s : SessionState) (h : env.apiKey = none) :
    startTutor_p0 env failing s = ({ s with error := some apiKeyMissingMsg }, [])
    ∧ (startTutor_p0 env failing s).1.status = s.status
    ∧ (startTutor_p0 env failing s).1.isActive = s.isActive
    ∧ (startTutor_p0 env failing s).1.micStream = s.micStream
    ∧ (startTutor_p0 env failing s).1.screenStream = s.screenStream
    ∧ (startTutor_p0 env failing s).1.audioCtx = s.audioCtx
    ∧ (startTutor_p0 env failing s).1.frameInterval = s.frameInterval
    ∧ (startTutor_p0 env failing s).1.sources = s.sources
    ∧ (startTutor_p0 env failing s).1.nextStartTime = s.nextStartTime
    ∧ (startTutor_p0 env failing s).2 = [] := by
  simp [startTutor_p0, h]

/-- C10 witness: the concrete keyless environment applied to a state
mid-session. -/
theorem C10_missing_api_key_witness :
    ({ micFailEnv with apiKey := none } : StartEnv).apiKey = none
    ∧ (startTutor_p0 { micFailEnv with apiKey := none } (fun _ => false)
        { idleState with status := "Connecting to Gemini...", sources := [4] } =
      ({ { idleState with status := "Connecting to Gemini...", sources := [4] }
          with error := some apiKeyMissingMsg }, [])
      ∧ (startTutor_p0 { micFailEnv with apiKey := none } (fun _ => false)
          { idleState with status := "Connecting to Gemini...", sources := [4] }).1.status =
          ({ idleState with status := "Connecting to Gemini...", sources := [4] } : SessionState).status
      ∧ (startTutor_p0 { micFailEnv with apiKey := none } (fun _ => false)
          { idleState with status := "Connecting to Gemini...", sources := [4] }).1.isActive =
          ({ idleState with status := "Connecting to Gemini...", sources := [4] } : SessionState).isActive
      ∧ (startTutor_p0 { micFailEnv with apiKey := none } (fun _ => false)
          { idleState with status := "Connecting to Gemini...", sources := [4] }).1.micStream =
          ({ idleState with status := "Connecting to Gemini...", sources := [4] } : SessionState).micStream
      ∧ (startTutor_p0 { micFailEnv with apiKey := none } (fun _ => false)
          { idleState with status := "Connecting to Gemini...", sources := [4] }).1.screenStream =
          ({ idleState with status := "Connecting to Gemini...", sources := [4] } : SessionState).screenStream
      ∧ (startTutor_p0 { micFailEnv with apiKey := none } (fun _ => false)
          { idleState with status := "Connecting to Gemini...", sources := [4] }).1.audioCtx =
          ({ idleState with status := "Connecting to Gemini...", sources := [4] } : SessionState).audioCtx
      ∧ (startTutor_p0 { micFailEnv with apiKey := none } (fun _ => false)
          { idleState with status := "Connecting to Gemini...", sources := [4] }).1.frameInterval =
          ({ idleState with status := "Connecting to Gemini...", sources := [4] } : SessionState).frameInterval
      ∧ (startTutor_p0 { micFailEnv with apiKey := none } (fun _ => false)
          { idleState with status := "Connecting to Gemini...", sources := [4] }).1.sources =
          ({ idleState with status := "Connecting to Gemini...", sources := [4] } : SessionState).sources
      ∧ (startTutor_p0 { micFailEnv with apiKey := none } (fun _ => false)
          { idleState with status := "Connecting to Gemini...", sources := [4] }).1.nextStartTime =
          ({ idleState with status := "Connecting to Gemini...", sources := [4] } : SessionState).nextStartTime
      ∧ (startTutor_p0 { micFailEnv with apiKey := none } (fun _ => false)
          { idleState with status := "Connecting to Gemini...", sources := [4] }).2 = []) :=
  ⟨rfl, C10_missing_api_key _ _ _ rfl⟩

/-- A start environment in which every acquisition step succeeds. -/
def envOk (env : StartEnv) : Prop :=
  (∃ k, env.apiKey = some k) ∧ env.hasDisplayMedia = true
  ∧ (∃ st, env.screenRes = Except.ok st) ∧ (∃ st, env.micRes = Except.ok st)
  ∧ (∃ i, env.inputCtxRes = Except.ok i) ∧ (∃ o, env.outputCtxRes = Except.ok o)
  ∧ env.playRes = Except.ok ()

/-- C9: teardown never touches the error banner — `stopSession`, the
remote-close handler and the device-revocation handler all leave
`error` exactly as it was while resetting status to idle ("Ready"); the
remote-error handler sets its one connection message before teardown and
teardown leaves that in place; and the error is cleared by the next
start attempt: a successful `startTutor` run ends with `error = none`
whatever banner the previous failure left. -/
theorem C9_error_persistence (failing : Eff → Bool) (s : SessionState)
    (env : StartEnv) (henv : envOk env) :
    (stopSession_p0 failing s).1.error = s.error
    ∧ (stopSession_p0 failing s).1.status = "Ready"
    ∧ (onTrackEnded_p0 failing s).1.error = s.error
    ∧ (onclose_p0 failing s).1.error = s.error
    ∧ (onerror_p0 failing s).1.error =
        some "A connection error occurred with the Gemini API."
    ∧ (onerror_p0 failing s).1.status = "Ready"
    ∧ (startTutor_p0 env failing s).1.error = none := by
  obtain ⟨⟨k, hk⟩, hdm, ⟨scr, hscr⟩, ⟨mic, hmic⟩, ⟨ictx, hictx⟩,
    ⟨octx, hoctx⟩, hplay⟩ := henv
  refine ⟨?_, ?_, ?_, ?_, ?_, ?_, ?_⟩
  · rw [stopSession_p0_eq]
    rfl
  · rw [stopSession_p0_eq]
    rfl
  · rw [onTrackEnded_p0, stopSession_p0_eq]
    rfl
  · rw [onclose_p0, stopSession_p0_eq]
    rfl
  · rw [onerror_p0, stopSession_p0_eq]
    rfl
  · rw [onerror_p0, stopSession_p0_eq]
    rfl
  · simp [startTutor_p0, hk, hdm, hscr, hmic, hictx, hoctx, hplay]

/-- C9 witness: the all-success environment applied to a state carrying
a stale error banner. -/
theorem C9_error_persistence_witness :
    envOk { micFailEnv with micRes := Except.ok { tracks := [2] } }
    ∧ ((stopSession_p0 (fun _ => false)
          { idleState with error := some "old failure" }).1.error =
        ({ idleState with error := some "old failure" } : SessionState).error
      ∧ (stopSession_p0 (fun _ => false)
          { idleState with error := some "old failure" }).1.status = "Ready"
      ∧ (onTrackEnded_p0 (fun _ => false)
          { idleState with error := some "old failure" }).1.error =
        ({ idleState with error := some "old failure" } : SessionState).error
      ∧ (onclose_p0 (fun _ => false)
          { idleState with error := some "old failure" }).1.error =
        ({ idleState with error := some "old failure" } : SessionState).error
      ∧ (onerror_p0 (fun _ => false)
          { idleState with error := some "old failure" }).1.error =
          some "A connection error occurred with the Gemini API."
      ∧ (onerror_p0 (fun _ => false)
          { idleState with error := some "old failure" }).1.status = "Ready"
      ∧ (startTutor_p0 { micFailEnv with micRes := Except.ok { tracks := [2] } }
          (fun _ => false) { idleState with error := some "old failure" }).1.error = none) :=
  ⟨⟨⟨"key", rfl⟩, rfl, ⟨{ tracks := [1] }, rfl⟩, ⟨{ tracks := [2] }, rfl⟩,
      ⟨10, rfl⟩, ⟨11, rfl⟩, rfl⟩,
    C9_error_persistence _ _ _
      ⟨⟨"key", rfl⟩, rfl, ⟨{ tracks := [1] }, rfl⟩, ⟨{ tracks := [2] }, rfl⟩,
        ⟨10, rfl⟩, ⟨11, rfl⟩, rfl⟩⟩

/-- An outbound item produced by the capture pipeline: a microphone
audio chunk or a screen video frame, identified by sequence number. -/
inductive OutItem
  | audioChunk (n : Nat)
  | videoFrame (n : Nat)
deriving DecidableEq

/-- The shared `sessionPromise`: while pending it holds the `.then`
callbacks registered so far, in registration order; once resolved it
holds the callbacks already run, in the order they ran.  This is exactly
the platform promise semantics both variants lean on: callbacks
registered before resolution run in registration order when the promise
resolves, callbacks registered after run immediately. -/
inductive Promise (α : Type)
  | pending (cbs : List α)
  | resolved (ran : List α)
deriving DecidableEq

/-- `sessionPromise.then(s => s.sendRealtimeInput(item))`. -/
def pThen {α : Type} : Promise α → α → Promise α
  | Promise.pending cbs, cb => Promise.pending (cbs ++ [cb])
  | Promise.resolved ran, cb => Promise.resolved (ran ++ [cb])

/-- Resolution of the session promise: every queued callback runs, in
registration order. -/
def pResolve {α : Type} : Promise α → Promise α
  | Promise.pending cbs => Promise.resolved cbs
  | Promise.resolved ran => Promise.resolved ran

/-- The sends actually issued so far (none while the promise is
pending). -/
def sentItems {α : Type} : Promise α → List α
  | Promise.pending _ => []
  | Promise.resolved ran => ran

/-- The part_000 producers (`onaudioprocess`, lines 119-127, and the
frame interval, lines 131-158): every produced chunk or frame is handed
to `sessionPromise.then` unconditionally. -/
def produce_p0 (p : Promise OutItem) (it : OutItem) : Promise OutItem :=
  pThen p it

/-- A whole production sequence in the part_000 variant. -/
def produceAll_p0 : Promise OutItem → List OutItem → Promise OutItem
  | p, [] => p
  | p, it :: rest => produceAll_p0 (produce_p0 p it) rest

/-- The value of the `isActive` binding captured by the App.tsx
`onaudioprocess` closure (line 97).  The closure is created inside
`startTutor` of the render that mounted it; `startTutor` is only
reachable from the START button, which is rendered when
`isActive = false`, and `setIsActive(true)` creates a new render
binding without changing the captured one. -/
def capturedIsActive_app : Bool := false

/-- The App.tsx producers: `onaudioprocess` (lines 96-99) returns before
queueing when the captured `isActive` is false; the frame interval
(lines 103-111) queues unconditionally. -/
def produce_app (isActiveCaptured : Bool) (p : Promise OutItem) (it : OutItem) :
    Promise OutItem :=
  match it with
  | OutItem.audioChunk _ => if isActiveCaptured then pThen p it else p
  | OutItem.videoFrame _ => pThen p it

lemma produceAll_p0_pending (acc : List OutItem) (its : List OutItem) :
    produceAll_p0 (Promise.pending acc) its = Promise.pending (acc ++ its) := by
  induction its generalizing acc with
  | nil => simp [produceAll_p0]
  | cons it rest ih =>
    rw [produceAll_p0, produce_p0, pThen, ih, List.append_assoc]
    rfl

/-- C4: evaluation at the failing input, next to the intended behavior.
In the part_000 variant every item produced while the session promise is
pending is queued and, on resolution, sent, in production order (first
conjunct: the delivered sequence equals the produced sequence — FIFO per
stream follows).  In the App.tsx variant the audio path consults the
stale captured `isActive` (false), so the first audio chunk — produced
while the promise is unresolved — is never queued and never sent,
although queueing it (`pThen`) would have delivered it. -/
theorem C4_stale_guard_drops_chunks :
    (∀ its : List OutItem,
      sentItems (pResolve (produceAll_p0 (Promise.pending []) its)) = its)
    ∧ produce_app capturedIsActive_app (Promise.pending []) (OutItem.audioChunk 0) =
        Promise.pending []
    ∧ sentItems (pResolve (produce_app capturedIsActive_app (Promise.pending [])
        (OutItem.audioChunk 0))) = []
    ∧ sentItems (pResolve (pThen (Promise.pending []) (OutItem.audioChunk 0))) =
        [OutItem.audioChunk 0] := by
  refine ⟨?_, rfl, rfl, rfl⟩
  intro its
  rw [produceAll_p0_pending]
  rfl

/-- Modelled from the spec: the PCM Encoder of section 4.1 (`createBlob`
in `utils/audio-processing`, a file not present under `src/`): each mono
float sample is clamped to [-1, 1] and quantized to a signed 16-bit
value; the byte payload is the samples' little-endian serialization
(the base64 wrapping is byte-faithful and elided). -/
def encodeSample (x : ℚ) : ℤ :=
  max (-32768) (min 32767 ⌊(max (-1 : ℚ) (min 1 x)) * 32768⌋)

/-- Little-endian serialization of one signed 16-bit sample value as two
bytes. -/
def int16ToBytes (i : ℤ) : List Nat :=
  let u := (i % 65536).toNat
  [u % 256, u / 256]

/-- Modelled from the spec: the byte stream produced by the PCM encoder
for a block of float samples. -/
def createBlob (xs : List ℚ) : List Nat :=
  (xs.map encodeSample).flatMap int16ToBytes

/-- Reading two little-endian bytes back as a signed 16-bit integer. -/
def bytesToInt16 (b0 b1 : Nat) : ℤ :=
  if b0 + 256 * b1 < 32768 then ((b0 + 256 * b1 : Nat) : ℤ)
  else ((b0 + 256 * b1 : Nat) : ℤ) - 65536

/-- Modelled from the spec: the Audio Decoder of section 4.2
(`decodeAudioData` in `utils/audio-processing`, not present under
`src/`): interpret the bytes as signed 16-bit little-endian integers and
normalize to [-1, 1] by dividing by 32768; an odd byte length is
malformed and fails with a DecodeError. -/
def decodePCM : List Nat → Except String (List ℚ)
  | [] => Except.ok []
  | _ :: [] => Except.error "DecodeError: odd byte length"
  | b0 :: b1 :: rest =>
    match decodePCM rest with
    | Except.ok ys => Except.ok (((bytesToInt16 b0 b1 : ℚ) / 32768) :: ys)
    | Except.error e => Except.error e

lemma encodeSample_bounds (x : ℚ) :
    -32768 ≤ encodeSample x ∧ encodeSample x ≤ 32767 := by
  unfold encodeSample
  constructor
  · exact le_max_left _ _
  · exact max_le (by norm_num) (min_le_left _ _)

lemma int16_roundtrip (i : ℤ) (hlo : -32768 ≤ i) (hhi : i ≤ 32767) :
    bytesToInt16 (((i % 65536).toNat) % 256) (((i % 65536).toNat) / 256) = i := by
  unfold bytesToInt16
  split <;> omega

lemma encodeSample_close (x : ℚ) (hlo : -1 ≤ x) (hhi : x ≤ 1) :
    |(encodeSample x : ℚ) / 32768 - x| ≤ 1 / 32768 := by
  have key : |(encodeSample x : ℚ) - x * 32768| ≤ 1 := by
    unfold encodeSample
    rw [min_eq_right hhi, max_eq_right hlo]
    have hfle : ((⌊x * 32768⌋ : ℤ) : ℚ) ≤ x * 32768 := Int.floor_le _
    have hflt : x * 32768 - 1 < ((⌊x * 32768⌋ : ℤ) : ℚ) := Int.sub_one_lt_floor _
    have hfl : (-32768 : ℤ) ≤ ⌊x * 32768⌋ := by
      apply Int.le_floor.2
      push_cast
      nlinarith
    by_cases hle : ⌊x * 32768⌋ ≤ 32767
    · rw [min_eq_right hle, max_eq_right hfl, abs_le]
      constructor
      · linarith
      · linarith
    · push_neg at hle
      have h32 : (32768 : ℤ) ≤ ⌊x * 32768⌋ := hle
      have hyge : (32768 : ℚ) ≤ x * 32768 := by
        calc (32768 : ℚ) = ((32768 : ℤ) : ℚ) := by norm_num
        _ ≤ ((⌊x * 32768⌋ : ℤ) : ℚ) := by exact_mod_cast h32
        _ ≤ x * 32768 := hfle
      have hyle : x * 32768 ≤ 32768 := by nlinarith
      have hy : x * 32768 = 32768 := le_antisymm hyle hyge
      rw [min_eq_left (le_of_lt hle), max_eq_right (by norm_num), hy]
      norm_num
  have hrw : (encodeSample x : ℚ) / 32768 - x =
      ((encodeSample x : ℚ) - x * 32768) / 32768 := by
    ring
  rw [hrw, abs_div, abs_of_pos (by norm_num : (0 : ℚ) < 32768)]
  linarith [key]

/-- C8 (spec-modelled, the encoder/decoder sources are not under `src/`):
for every block of float samples within [-1, 1], encoding with the
section 4.1 PCM encoder and decoding the resulting bytes with the
section 4.2 decoder succeeds and reproduces the block sample for sample
within 16-bit quantization error: same length, and each decoded sample
differs from its original by at most 1/32768. -/
theorem C8_encode_decode_roundtrip (xs : List ℚ)
    (h : ∀ x ∈ xs, -1 ≤ x ∧ x ≤ 1) :
    ∃ ys, decodePCM (createBlob xs) = Except.ok ys
      ∧ ys.length = xs.length
      ∧ List.Forall₂ (fun y x => |y - x| ≤ 1 / 32768) ys xs := by
  induction xs with
  | nil => exact ⟨[], rfl, rfl, List.Forall₂.nil⟩
  | cons x xs ih =>
    obtain ⟨hxlo, hxhi⟩ := h x (List.mem_cons_self x xs)
    obtain ⟨ys, hys, hlen, hfa⟩ := ih (fun a ha => h a (List.mem_cons_of_mem x ha))
    obtain ⟨helo, hehi⟩ := encodeSample_bounds x
    have hblob : createBlob (x :: xs) =
        ((encodeSample x % 65536).toNat % 256) ::
        ((encodeSample x % 65536).toNat / 256) :: createBlob xs := by
      rw [createBlob, List.map_cons, List.flatMap_cons]
      rfl
    rw [hblob]
    refine ⟨((bytesToInt16 ((encodeSample x % 65536).toNat % 256)
        ((encodeSample x % 65536).toNat / 256) : ℚ) / 32768) :: ys, ?_, ?_, ?_⟩
    · rw [decodePCM, hys]
    · simp [hlen]
    · refine List.Forall₂.cons ?_ hfa
      rw [int16_roundtrip (encodeSample x) helo hehi]
      exact encodeSample_close x hxlo hxhi

/-- C8 witness: the block [1, -1, 1/2, 0] round-trips within 1/32768 per
sample. -/
theorem C8_encode_decode_roundtrip_witness :
    (∀ x ∈ ([1, -1, 1/2, 0] : List ℚ), -1 ≤ x ∧ x ≤ 1)
    ∧ ∃ ys, decodePCM (createBlob ([1, -1, 1/2, 0] : List ℚ)) = Except.ok ys
        ∧ ys.length = ([1, -1, 1/2, 0] : List ℚ).length
        ∧ List.Forall₂ (fun y x => |y - x| ≤ 1 / 32768) ys
            ([1, -1, 1/2, 0] : List ℚ) :=
  ⟨by norm_num, C8_encode_decode_roundtrip _ (by norm_num)⟩
